import Mathlib

/-!
Shallow embedding of the `industrial-io` Rust crate (a binding layer over
the native libiio hardware-abstraction library), covering the attribute
conversion layer (`src/lib.rs`), the error taxonomy (`src/errors.rs`),
channel data formats and typed reads (`src/channel.rs`), buffers and the
typed strided iterator (`src/buffer.rs`), and indexed device lookup
(`src/context.rs`).

Machine integers are modelled as `Nat`/`Int` with the casts the source
performs made explicit (`as i32` and `as c_uint` are wrapping casts in
Rust and are modelled as such).  Calls into the opaque native library are
modelled by passing their outputs (return codes, filled byte counts,
buffer contents) as explicit arguments, or - where a claim depends on
native behaviour that the spec describes - by definitions whose doc
comments start with `Modelled from the spec:`.
-/

deriving instance DecidableEq for Except

namespace IndustrialIo

/-- The `Error` enum of `src/errors.rs`.  The `Io`/`Nix` payloads are
reduced to the numeric error code; the `General` payload keeps its
message string. -/
inductive Error where
  | Io (code : Int)
  | NulError
  | Nix (errno : Int)
  | StringConversionError
  | WrongDataType
  | BadReturnSize
  | InvalidIndex
  | General (msg : String)
deriving DecidableEq, Repr

/-- Rust wrapping cast of a 64-bit `isize` value to `i32`
(`ret as i32`): reduce modulo 2^32 into the signed window
[-2^31, 2^31). -/
def toI32 (x : Int) : Int :=
  (x + 2 ^ 31) % 2 ^ 32 - 2 ^ 31

/-- Rust wrapping cast of an `isize` value to `usize` on a 64-bit
target (`ret as usize`): reduce modulo 2^64. -/
def toUsize (x : Int) : Int :=
  x % 2 ^ 64

/-- `sys_result` of `src/lib.rs` (lines 99-106): a negative return code
turns into the errno-derived `Nix` error, otherwise the supplied result
is returned.  The negation `-ret` in `errno::from_i32(-ret)` is an
`i32` negation: at `ret = i32::MIN` it wraps back to `i32::MIN` in a
release build (a debug build panics there), so it is modelled as the
mathematical negation reduced by the wrapping `i32` cast. -/
def sys_result {α : Type} (ret : Int) (result : α) : Except Error α :=
  if ret < 0 then .error (.Nix (toI32 (-ret))) else .ok result

/-- `Buffer::refill` of `src/buffer.rs` (lines 114-117) as a function of
the native `iio_buffer_refill` return value `ret` (a C `ssize_t`):
the source computes `sys_result(ret as i32, ret as usize)`. -/
def Buffer.refill (ret : Int) : Except Error Int :=
  sys_result (toI32 ret) (toUsize ret)

/-- The default `FromAttribute::from_attr` of `src/lib.rs` (lines
121-127), over an abstract `FromStr` parse function `from_str`
(`Self::from_str(s)` with its error mapped to the string-conversion
error). -/
def from_attr {α : Type} (from_str : String → Option α) (s : String) : Except Error α :=
  match from_str s with
  | none => .error .StringConversionError
  | some v => .ok v

/-- `impl ToAttribute for bool` of `src/lib.rs` (lines 135-139):
serialize `true` as "1" and `false` as "0". -/
def bool_to_attr (b : Bool) : Except Error String :=
  .ok (if b then "1" else "0")

/-- Rust's `str::trim`: strip leading and trailing whitespace.
(Executable embedding over the character list; `Char.isWhitespace`
stands in for Rust's Unicode whitespace predicate - they agree on
every character the attribute protocol uses.) -/
def rust_trim (s : String) : String :=
  ⟨((s.data.dropWhile Char.isWhitespace).reverse.dropWhile Char.isWhitespace).reverse⟩

/-- `impl FromAttribute for bool` of `src/lib.rs` (lines 141-145):
`Ok(s.trim() != "0")` - this implementation never fails. -/
def bool_from_attr (s : String) : Except Error Bool :=
  .ok (decide (rust_trim s ≠ "0"))

/-- The fields of the native `iio_data_format` struct carried by
`DataFormat` in `src/channel.rs`.  The floating-point `scale` field is
outside the embedding (no claim mentions it); all integer fields are
kept. -/
structure iio_data_format where
  length : Nat
  bits : Nat
  shift : Nat
  is_signed : Bool
  is_fully_defined : Bool
  is_be : Bool
  with_scale : Bool
  repeat_cnt : Nat
deriving DecidableEq, Repr

/-- `DataFormat` of `src/channel.rs` (lines 64-68): a wrapper holding
the native descriptor. -/
structure DataFormat where
  data_fmt : iio_data_format
deriving DecidableEq, Repr

/-- `DataFormat::length` (channel.rs lines 77-79): total length of the
sample, in bits. -/
def DataFormat.length (df : DataFormat) : Nat :=
  df.data_fmt.length

/-- `DataFormat::bits` (channel.rs lines 82-84): length of the valid
data in the sample, in bits. -/
def DataFormat.bits (df : DataFormat) : Nat :=
  df.data_fmt.bits

/-- `DataFormat::is_signed` (channel.rs lines 92-94). -/
def DataFormat.is_signed (df : DataFormat) : Bool :=
  df.data_fmt.is_signed

/-- `DataFormat::repeat` (channel.rs lines 117-119). -/
def DataFormat.repeat_of (df : DataFormat) : Nat :=
  df.data_fmt.repeat_cnt

/-- `DataFormat::byte_length` (channel.rs lines 122-125):
`(self.length() / 8) * self.repeat()` - note: the TOTAL bit length,
not the valid-bit count. -/
def DataFormat.byte_length (df : DataFormat) : Nat :=
  (df.length / 8) * df.repeat_of

/-- The closed universe of Rust `TypeId` tags the crate compares
against: the eight integer types `DataFormat::type_of` can produce,
plus a tag for every other `Copy + 'static` type (identified by an
arbitrary id, carrying its `size_of`). -/
inductive TypeId where
  | i8 | i16 | i32 | i64
  | u8 | u16 | u32 | u64
  | other (id : Nat) (sz : Nat)
deriving DecidableEq, Repr

/-- `mem::size_of` for the type a `TypeId` tag denotes. -/
def TypeId.size : TypeId → Nat
  | .i8 => 1
  | .i16 => 2
  | .i32 => 4
  | .i64 => 8
  | .u8 => 1
  | .u16 => 2
  | .u32 => 4
  | .u64 => 8
  | .other _ sz => sz

/-- `DataFormat::type_of` (channel.rs lines 131-152): the best-fit host
integer type for one sample, by byte length and signedness, searching
1/2/4/8-byte signed or unsigned. -/
def DataFormat.type_of (df : DataFormat) : Option TypeId :=
  let nbytes := df.byte_length
  if df.is_signed then
    match nbytes with
    | 1 => some .i8
    | 2 => some .i16
    | 4 => some .i32
    | 8 => some .i64
    | _ => none
  else
    match nbytes with
    | 1 => some .u8
    | 2 => some .u16
    | 4 => some .u32
    | 8 => some .u64
    | _ => none

/-- `Channel::convert` (channel.rs lines 423-438): the channel's data
format decides `type_of()`; only when it equals the caller's `TypeId`
is the native `iio_channel_convert` (an opaque transform on values of
that type, passed here as `conv`) applied; otherwise the value is
returned unchanged.  The return type shows no error is possible. -/
def Channel.convert {α : Type} (conv : α → α) (df : DataFormat) (tyT : TypeId) (val : α) : α :=
  if df.type_of = some tyT then conv val else val

/-- `Channel::convert_inverse` (channel.rs lines 445-460): same guard
as `Channel::convert`, with the native `iio_channel_convert_inverse`
passed as `conv`. -/
def Channel.convert_inverse {α : Type} (conv : α → α) (df : DataFormat) (tyT : TypeId) (val : α) : α :=
  if df.type_of = some tyT then conv val else val

/-- `Channel::read` (channel.rs lines 463-486) as a function of the
outputs of the native `iio_channel_read` call: `sz` is the byte count
it returned and `v` the contents of the destination vector after the
call (the vector is allocated with `buf.capacity()` elements, so
`v.length = cap` holds at every call site).  The source checks the type
tag first, then compares `sz` against the requested
`cap * size_of::<T>()` bytes, truncating on a short return. -/
def Channel.read {α : Type} (df : DataFormat) (tyT : TypeId) (cap : Nat) (sz : Nat)
    (v : List α) : Except Error (List α) :=
  if df.type_of ≠ some tyT then .error .WrongDataType
  else
    let sz_item := tyT.size
    let sz_in := cap * sz_item
    if sz > sz_in then .error .BadReturnSize
    else if sz < sz_in then .ok (v.take (sz / sz_item))
    else .ok v

/-- The `IntoIter<T>` struct of `src/buffer.rs` (lines 365-373).
Raw addresses are modelled as byte offsets from the start of the
buffer memory: `ptr` is the current sample pointer for the channel,
`endp` the whole-buffer end pointer (`end` in the source), and `step`
the per-step offset measured in units of `T` (the source stores it as
an `isize` count of `T` elements), so one `ptr.offset(step)` advances
`step * tsize` bytes, where `tsize` is `mem::size_of::<T>()`. -/
structure IntoIter where
  ptr : Nat
  endp : Nat
  step : Nat
  tsize : Nat
deriving DecidableEq, Repr

/-- `Iterator::next` for `IntoIter<T>` (buffer.rs lines 378-389): if
the current pointer is at or past the end pointer the iteration
terminates with `None`; otherwise the value at the current offset is
read and the pointer advances by `step` elements of `T`. -/
def IntoIter.next (it : IntoIter) : Option (Nat × IntoIter) :=
  if it.endp ≤ it.ptr then none
  else some (it.ptr, { it with ptr := it.ptr + it.step * it.tsize })

/-- Drive `IntoIter.next` at most `fuel` times, collecting the byte
offsets of the samples read.  (The Rust iterator protocol is demand
driven; `fuel` bounds how many times `next()` is called, so "yields
exactly n items" is: for every `fuel ≥ n` the collected list has
length `n`.) -/
def IntoIter.take (fuel : Nat) (it : IntoIter) : List Nat :=
  match fuel with
  | 0 => []
  | fuel' + 1 =>
    match it.next with
    | none => []
    | some (x, it') => x :: it'.take fuel'

/-- `Buffer::channel_iter::<T>` (buffer.rs lines 339-353), with the
native buffer geometry modelled from the spec.  Modelled from the
spec: `iio_buffer_first`, `iio_buffer_end` and `iio_buffer_step` are
native calls; per the spec the buffer memory is contiguous across all
enabled channels, one sample row is `rowBytes` bytes wide, the
channel's first sample starts `off` bytes into the first row, and the
buffer holds `n` sample rows, so `first = off`, `end = n * rowBytes`,
and the source computes `step = rowBytes / size_of::<T>()` (integer
division, as in the source). -/
def Buffer.channel_iter (off rowBytes n tsize : Nat) : IntoIter :=
  { ptr := off, endp := n * rowBytes, step := rowBytes / tsize, tsize := tsize }

/-- `Context` of `src/context.rs`, with the native device table
modelled from the spec.  Modelled from the spec: the native context
owns a fixed, finite table of devices; devices are identified here by
opaque native handles.  `iio_context_get_devices_count` returns the
table's length and `iio_context_get_device` returns the handle at the
index, or NULL exactly when the index is out of range. -/
structure Context where
  devices : List Nat
deriving DecidableEq, Repr

/-- `Context::num_devices` (context.rs lines 394-396): the native
device count. -/
def Context.num_devices (c : Context) : Nat :=
  c.devices.length

/-- `Context::get_device` (context.rs lines 399-408): the index is
passed to the native call as `idx as c_uint` - a wrapping cast to 32
bits on a 64-bit target - and a NULL native return maps to
`Error::InvalidIndex`. -/
def Context.get_device (c : Context) (idx : Nat) : Except Error Nat :=
  match c.devices.get? (idx % 2 ^ 32) with
  | none => .error .InvalidIndex
  | some dev => .ok dev

/-- The `Buffer` struct of `src/buffer.rs` (lines 71-78): the opaque
native buffer handle, the capacity in samples per channel recorded at
creation, and the handle of the owning device. -/
structure Buffer where
  buf : Nat
  cap : Nat
  dev : Nat
deriving DecidableEq, Repr

/-- `Buffer::capacity` (buffer.rs lines 85-87). -/
def Buffer.capacity (b : Buffer) : Nat :=
  b.cap

/-- `Device::create_buffer` (device.rs lines 253-263) as a function of
the native `iio_device_create_buffer` outcome: `native` is the handle
it returned (`none` for NULL) and `lastErrno` the thread's last errno
consulted on failure.  On success the buffer records `cap :=
sample_count`. -/
def Device.create_buffer (dev : Nat) (native : Option Nat) (sample_count : Nat)
    (cyclic : Bool) (lastErrno : Int) : Except Error Buffer :=
  match native, cyclic with
  | none, _ => .error (.Nix lastErrno)
  | some h, _ => .ok { buf := h, cap := sample_count, dev := dev }

/-- The buffer operations of `src/buffer.rs` a caller can invoke after
creation.  Each Rust method body only calls into the native library on
`self.buf` (or `self.dev.dev`); none assigns to any field of the
`Buffer` struct. -/
inductive BufOp where
  | refill
  | push
  | pushPartial (n : Nat)
  | cancel
  | setBlockingMode (blocking : Bool)
  | channelIter (chan : Nat)
  | attrRead (attr : String)
  | attrWrite (attr val : String)
deriving DecidableEq, Repr

/-- One buffer method call: `eff` is the opaque effect of the native
call on the native world `W`, given the buffer's native handle and the
operation; the `Buffer` struct itself is returned unchanged, mirroring
that no method of `impl Buffer` assigns to `self.buf`, `self.cap` or
`self.dev`. -/
def applyBufOp {W : Type} (eff : W → Nat → BufOp → W) (s : W × Buffer) (op : BufOp) :
    W × Buffer :=
  (eff s.1 s.2.buf op, s.2)

/-- Modelled from the spec: the state of a buffer as seen through the
native library, for the `cancel` state machine of spec section 4.5.
`iio_buffer_cancel` is a native call; per the spec (and the doc
comment of `Buffer::cancel`, buffer.rs lines 137-158) it sets a sticky
cancelled flag, after which refill/push return immediately with an
error, and repeated calls have no additional effect.  `inner` is the
rest of the native buffer state, untouched by cancellation. -/
structure BufIoState (σ : Type) where
  cancelled : Bool
  inner : σ

/-- Modelled from the spec: `Buffer::cancel` (buffer.rs lines 158-162)
sets the sticky cancelled flag and returns nothing - it has no error
path. -/
def Buffer.cancelOp {σ : Type} (s : BufIoState σ) : BufIoState σ :=
  { s with cancelled := true }

/-- Modelled from the spec: `Buffer::refill`/`Buffer::push` against
the cancellation state machine.  On a cancelled buffer the native call
fails immediately with some error `e`; otherwise the transfer `xfer`
runs on the rest of the native state. -/
def Buffer.ioOp {σ : Type} (e : Error) (xfer : σ → Except Error Int × σ)
    (s : BufIoState σ) : Except Error Int × BufIoState σ :=
  if s.cancelled then (.error e, s)
  else
    let (r, σ') := xfer s.inner
    (r, { s with inner := σ' })

/-! ## Theorems -/

/-- C5: boolean attribute serialization is exactly `to_attr true = "1"`
and `to_attr false = "0"` (never "true"/"false"), and for every bool
the write-then-read round trip `from_attr (to_attr b) = Ok b` holds. -/
theorem bool_attr_round_trip :
    bool_to_attr true = .ok "1" ∧ bool_to_attr false = .ok "0" ∧
    ∀ b : Bool, (bool_to_attr b).bind bool_from_attr = .ok b := by
  refine ⟨rfl, rfl, ?_⟩
  intro b
  cases b <;> decide

/-- C6 counterexample: the claim says an input string that is not a
valid boolean encoding makes `bool::from_attr` signal the
string-conversion error, but the implementation never fails: on the
non-boolean input "yes" it returns `Ok(true)`. -/
theorem bool_from_attr_no_error_counterexample :
    bool_from_attr "yes" = .ok true := by
  decide

/-- C6 amended: for the types using the default `from_attr` (the
signed/unsigned integers, float and string impls), an input the
`FromStr` parser rejects yields the string-conversion error; `bool`
overrides the default and never fails, returning `Ok(s.trim() != "0")`
for every input string. -/
theorem from_attr_parse_failure :
    (∀ (α : Type) (fs : String → Option α) (s : String), fs s = none →
      from_attr fs s = .error .StringConversionError)
    ∧ ∀ s : String, bool_from_attr s = .ok (decide (rust_trim s ≠ "0")) := by
  constructor
  · intro α fs s h
    simp [from_attr, h]
  · intro s
    rfl

/-- Witness for the C6 amended theorem at a concrete parser and
input. -/
theorem from_attr_parse_failure_witness :
    from_attr (fun _ : String => (none : Option Nat)) "x" = .error .StringConversionError :=
  from_attr_parse_failure.1 Nat (fun _ => none) "x" rfl

/-- C2 counterexample: a 12-bit sample stored (sign-extended) in a
16-bit word with repeat 1 - `byte_length()` returns 2 (from the total
bit length 16), while the claimed formula `(bits / 8) * repeat` with
`bits` the valid-bit count 12 gives 1. -/
theorem byte_length_valid_bits_counterexample :
    DataFormat.byte_length ⟨⟨16, 12, 0, true, false, false, false, 1⟩⟩ = 2 ∧
    (DataFormat.bits ⟨⟨16, 12, 0, true, false, false, false, 1⟩⟩ / 8) *
        DataFormat.repeat_of ⟨⟨16, 12, 0, true, false, false, false, 1⟩⟩ = 1 := by
  decide

/-- C2 amended: for every channel data format,
`DataFormat::byte_length()` equals `(length / 8) * repeat`, where
`length` is the TOTAL bit length of the sample (the storage width),
not the valid-bit count `bits`. -/
theorem byte_length_total_bits (df : DataFormat) :
    df.byte_length = (df.data_fmt.length / 8) * df.data_fmt.repeat_cnt :=
  rfl

/-- C7 counterexample: the native refill return value `r = 2^31` is
non-negative, yet `Buffer::refill` does not return `Ok(r)`: the
`ret as i32` truncation makes `sys_result` see a negative code, so a
system error is produced (which error value is deliberately left
existential: at this input the source's `i32` negation of the errno
wraps in release builds and panics in debug builds, but on no build
does the call return `Ok`). -/
theorem refill_wrap_counterexample :
    (∃ e, Buffer.refill (2 ^ 31) = .error e) ∧ (0 : Int) ≤ 2 ^ 31 := by
  constructor
  · exact ⟨.Nix (-2 ^ 31), by decide⟩
  · decide

/-- C7 amended: `Buffer::refill` converts the native return `r`
through the wrapping cast `r as i32`; it returns a system error
exactly when that 32-bit-truncated value is negative, and
`Ok(r as usize)` otherwise.  For negative `r` strictly above
`i32::MIN` the error carries errno `-r`.  In particular for every `r`
in `[-2^31, 2^31)` - all realistic byte counts and errno codes - this
agrees with the claim: an error exactly when `r < 0`, and `Ok(r)` for
non-negative `r`. -/
theorem refill_sys_result_spec (r : Int) :
    (toI32 r < 0 → ∃ e, Buffer.refill r = .error e)
    ∧ (0 ≤ toI32 r → Buffer.refill r = .ok (toUsize r))
    ∧ (-(2 ^ 31) < r → r < 0 → Buffer.refill r = .error (.Nix (-r)))
    ∧ (-(2 ^ 31) ≤ r → r < 2 ^ 31 →
        ((∃ e, Buffer.refill r = .error e) ↔ r < 0)
        ∧ (0 ≤ r → Buffer.refill r = .ok r)) := by
  refine ⟨?_, ?_, ?_, ?_⟩
  · intro h
    exact ⟨.Nix (toI32 (-toI32 r)), by simp [Buffer.refill, sys_result, h]⟩
  · intro h
    simp [Buffer.refill, sys_result, not_lt.mpr h]
  · intro h1 h2
    have ht : toI32 r = r := by
      unfold toI32
      rw [Int.emod_eq_of_lt (by omega) (by omega)]
      omega
    have hn : toI32 (-r) = -r := by
      unfold toI32
      rw [Int.emod_eq_of_lt (by omega) (by omega)]
      omega
    rw [Buffer.refill, sys_result, ht, if_pos h2, hn]
  · intro h1 h2
    have ht : toI32 r = r := by
      unfold toI32
      rw [Int.emod_eq_of_lt (by omega) (by omega)]
      omega
    constructor
    · constructor
      · rintro ⟨e, he⟩
        by_contra hr
        rw [not_lt] at hr
        rw [Buffer.refill, sys_result, ht, if_neg (not_lt.mpr hr)] at he
        exact absurd he (by simp)
      · intro hr
        exact ⟨.Nix (toI32 (-r)), by rw [Buffer.refill, sys_result, ht, if_pos hr]⟩
    · intro hr
      have hu : toUsize r = r := by
        unfold toUsize
        rw [Int.emod_eq_of_lt (by omega) (by omega)]
      rw [Buffer.refill, sys_result, ht, if_neg (not_lt.mpr hr), hu]

/-- Witness for the C7 amended theorem at the concrete native return
values 5 (success) and -3 (error with errno 3). -/
theorem refill_sys_result_spec_witness :
    Buffer.refill 5 = .ok 5 ∧ Buffer.refill (-3) = .error (.Nix 3) :=
  ⟨((refill_sys_result_spec 5).2.2.2 (by decide) (by decide)).2 (by decide),
   (refill_sys_result_spec (-3)).2.2.1 (by decide) (by decide)⟩

/-- C4: when the channel's `type_of()` does not equal the caller's
type tag (mismatch by byte width or signedness), `Channel::convert`
and `Channel::convert_inverse` both return the input value unchanged,
whatever the native conversion functions would do; their return types
show neither call can return an error. -/
theorem convert_mismatch_identity {α : Type} (conv conv' : α → α) (df : DataFormat)
    (tyT : TypeId) (val : α) (h : df.type_of ≠ some tyT) :
    Channel.convert conv df tyT val = val
    ∧ Channel.convert_inverse conv' df tyT val = val := by
  unfold Channel.convert Channel.convert_inverse
  simp [h]

/-- Witness for C4: an 8-bit unsigned channel (`type_of = u8`) asked
to convert a value tagged `u32` leaves the value unchanged even though
the native conversion would increment it. -/
theorem convert_mismatch_identity_witness :
    Channel.convert Nat.succ ⟨⟨8, 8, 0, false, true, false, false, 1⟩⟩ .u32 7 = 7 :=
  (convert_mismatch_identity Nat.succ Nat.succ ⟨⟨8, 8, 0, false, true, false, false, 1⟩⟩
    .u32 7 (by decide)).1

/-- C8: cancelling a buffer twice has the same observable effect as
cancelling it once - the state after the second `cancel()` equals the
state after the first, the second call produces no error (it has no
error path), and refill/push behave identically after one or two
cancels: both fail immediately with the cancellation error. -/
theorem cancel_idempotent {σ : Type} (s : BufIoState σ) (e e' : Error)
    (xferR xferP : σ → Except Error Int × σ) :
    Buffer.cancelOp (Buffer.cancelOp s) = Buffer.cancelOp s
    ∧ Buffer.ioOp e xferR (Buffer.cancelOp (Buffer.cancelOp s)) =
        Buffer.ioOp e xferR (Buffer.cancelOp s)
    ∧ Buffer.ioOp e' xferP (Buffer.cancelOp (Buffer.cancelOp s)) =
        Buffer.ioOp e' xferP (Buffer.cancelOp s)
    ∧ (Buffer.ioOp e xferR (Buffer.cancelOp s)).1 = .error e := by
  refine ⟨rfl, rfl, rfl, ?_⟩
  simp [Buffer.ioOp, Buffer.cancelOp]

/-- C9 counterexample: on a context holding one device,
`get_device(2^32)` succeeds and returns device 0, because the index is
truncated by the `idx as c_uint` cast before reaching the native
lookup - even though `2^32 >= num_devices() = 1`, contradicting the
claim that every out-of-range index fails with the invalid-index
error. -/
theorem get_device_wrap_counterexample :
    Context.get_device ⟨[7]⟩ (2 ^ 32) = .ok 7
    ∧ Context.num_devices ⟨[7]⟩ ≤ 2 ^ 32 := by
  constructor
  · decide
  · decide

/-- C9 amended: `Context::get_device` truncates the index to 32 bits
(the `idx as c_uint` cast); it fails with `Error::InvalidIndex`
exactly when the truncated index is at or past `num_devices()` - it
never blocks, being a total function of the device table - and returns
the device at the truncated index otherwise.  For every index below
`2^32` this is exactly the original claim. -/
theorem get_device_truncated_index (c : Context) (idx : Nat) :
    (c.num_devices ≤ idx % 2 ^ 32 → c.get_device idx = .error .InvalidIndex)
    ∧ (∀ h : idx % 2 ^ 32 < c.num_devices,
        c.get_device idx = .ok (c.devices.get ⟨idx % 2 ^ 32, h⟩))
    ∧ (idx < 2 ^ 32 → c.num_devices ≤ idx → c.get_device idx = .error .InvalidIndex) := by
  have hmain : ∀ h : idx % 2 ^ 32 < c.num_devices,
      c.get_device idx = .ok (c.devices.get ⟨idx % 2 ^ 32, h⟩) := by
    intro h
    unfold Context.get_device
    rw [List.get?_eq_get h]
  refine ⟨?_, hmain, ?_⟩
  · intro h
    unfold Context.get_device
    rw [List.get?_eq_none.mpr h]
  · intro hlt h
    unfold Context.get_device
    rw [List.get?_eq_none.mpr (by rwa [Nat.mod_eq_of_lt hlt])]

/-- Witness for the C9 amended theorem: on a two-device context, index
5 (in range of the 32-bit cast, out of range of the table) fails with
the invalid-index error. -/
theorem get_device_truncated_index_witness :
    Context.get_device ⟨[7, 8]⟩ 5 = .error .InvalidIndex :=
  (get_device_truncated_index ⟨[7, 8]⟩ 5).2.2 (by decide) (by decide)

/-- C10: a buffer successfully returned by `Device::create_buffer`
records `capacity() = sample_count`, and no subsequent buffer
operation (refill, push, partial push, cancel, blocking-mode change,
channel iteration, attribute access) ever changes it - the operations
only act on the native world through the opaque handle, never on the
`Buffer` struct's fields. -/
theorem create_buffer_capacity_invariant {W : Type} (eff : W → Nat → BufOp → W)
    (dev : Nat) (native : Option Nat) (sample_count : Nat) (cyclic : Bool)
    (lastErrno : Int) (b : Buffer)
    (hc : Device.create_buffer dev native sample_count cyclic lastErrno = .ok b) :
    b.capacity = sample_count
    ∧ ∀ (ops : List BufOp) (w : W),
        ((ops.foldl (applyBufOp eff) (w, b)).2).capacity = sample_count := by
  have hsnd : ∀ (ops : List BufOp) (s : W × Buffer),
      (ops.foldl (applyBufOp eff) s).2 = s.2 := by
    intro ops
    induction ops with
    | nil => intro s; rfl
    | cons op t ih => intro s; simpa [List.foldl, applyBufOp] using ih _
  cases native with
  | none => simp [Device.create_buffer] at hc
  | some h =>
    simp only [Device.create_buffer] at hc
    have hb : b.capacity = sample_count := by
      cases hc
      rfl
    exact ⟨hb, fun ops w => by rw [hsnd]; exact hb⟩

/-- Witness for C10 at a concrete creation and operation sequence. -/
theorem create_buffer_capacity_invariant_witness :
    Buffer.capacity ⟨42, 16, 1⟩ = 16
    ∧ ((([BufOp.refill, BufOp.cancel, BufOp.cancel]).foldl
          (applyBufOp (fun (w : Nat) _ _ => w + 1)) (0, ⟨42, 16, 1⟩)).2).capacity = 16 :=
  ⟨(create_buffer_capacity_invariant (fun (w : Nat) _ _ => w + 1) 1 (some 42) 16 false 0
      ⟨42, 16, 1⟩ rfl).1,
   (create_buffer_capacity_invariant (fun (w : Nat) _ _ => w + 1) 1 (some 42) 16 false 0
      ⟨42, 16, 1⟩ rfl).2 [BufOp.refill, BufOp.cancel, BufOp.cancel] 0⟩

/-- A sample type tag produced by `DataFormat::type_of` is one of the
eight host integer types, whose size is positive. -/
theorem type_of_size_pos {df : DataFormat} {t : TypeId} (h : df.type_of = some t) :
    0 < t.size := by
  unfold DataFormat.type_of at h
  simp only [] at h
  split at h <;> split at h <;>
    first
      | (injection h with h2; subst h2; decide)
      | exact Option.noConfusion h

/-- C3: `Channel::read::<T>` returns the wrong-data-type error
whenever `T` does not match the channel's native sample type; when
they match and the native call returns `sz` bytes against a request of
`capacity * size_of::<T>()` bytes, it returns the bad-return-size
error if `sz` exceeds the request, a vector truncated to
`sz / size_of::<T>()` elements if `sz` falls short, and the full
`capacity`-element vector otherwise.  (`v` is the destination vector
after the native call; it always has `capacity` elements.) -/
theorem channel_read_spec {α : Type} (df : DataFormat) (tyT : TypeId) (cap sz : Nat)
    (v : List α) (hv : v.length = cap) :
    (df.type_of ≠ some tyT → Channel.read df tyT cap sz v = .error .WrongDataType)
    ∧ (df.type_of = some tyT →
        (cap * tyT.size < sz → Channel.read df tyT cap sz v = .error .BadReturnSize)
        ∧ (sz < cap * tyT.size →
            Channel.read df tyT cap sz v = .ok (v.take (sz / tyT.size))
            ∧ (v.take (sz / tyT.size)).length = sz / tyT.size)
        ∧ (sz = cap * tyT.size →
            Channel.read df tyT cap sz v = .ok v ∧ v.length = cap)) := by
  constructor
  · intro h
    simp [Channel.read, h]
  · intro heq
    have hpos : 0 < tyT.size := type_of_size_pos heq
    refine ⟨?_, ?_, ?_⟩
    · intro hgt
      simp [Channel.read, heq, hgt]
    · intro hlt
      have hk : sz / tyT.size < cap := (Nat.div_lt_iff_lt_mul hpos).mpr hlt
      constructor
      · simp [Channel.read, heq, hlt, Nat.not_lt.mpr (Nat.le_of_lt hlt)]
      · rw [List.length_take, hv]
        omega
    · intro hsz
      subst hsz
      refine ⟨?_, hv⟩
      simp [Channel.read, heq]

/-- Witness for C3 at a concrete 8-bit unsigned channel read as `u8`
with a full (non-short) native return. -/
theorem channel_read_spec_witness :
    Channel.read ⟨⟨8, 8, 0, false, true, false, false, 1⟩⟩ .u8 2 2 [5, 6] = .ok [5, 6] :=
  (((channel_read_spec ⟨⟨8, 8, 0, false, true, false, false, 1⟩⟩ .u8 2 2
      ([5, 6] : List Nat) rfl).2 (by decide)).2.2 (by decide)).1

/-- Counting lemma for the strided iterator: starting `off < step`
bytes into a region of `n` rows of `step = stp * ts` bytes each, the
iterator yields exactly `n` items whatever extra fuel it is given. -/
theorem take_length_of_lt (stp ts : Nat) :
    ∀ (n fuel base off : Nat), off < stp * ts → n ≤ fuel →
      (IntoIter.take fuel ⟨base + off, base + n * (stp * ts), stp, ts⟩).length = n := by
  intro n
  induction n with
  | zero =>
    intro fuel base off hoff hfuel
    cases fuel with
    | zero => rfl
    | succ f => simp [IntoIter.take, IntoIter.next]
  | succ n ih =>
    intro fuel base off hoff hfuel
    cases fuel with
    | zero => omega
    | succ f =>
      have hstep : stp * ts ≤ (n + 1) * (stp * ts) :=
        Nat.le_mul_of_pos_left _ (Nat.succ_pos n)
      have hlt : ¬(base + (n + 1) * (stp * ts) ≤ base + off) := by omega
      simp only [IntoIter.take, IntoIter.next, hlt, if_false]
      have h1 : base + off + stp * ts = base + stp * ts + off := by ring
      have h2 : base + (n + 1) * (stp * ts) = base + stp * ts + n * (stp * ts) := by ring
      rw [List.length_cons, h1, h2, ih f (base + stp * ts) off hoff (by omega)]

/-- C1: over a freshly, fully refilled buffer of `n` sample rows of
`rowBytes` bytes, with the channel's first sample `off` bytes into the
first row and `T` matching the channel's sample slot (positive size
`tsize` dividing the row width, with the sample inside the row),
`channel_iter::<T>` yields exactly `n` items; and for every iterator
state, `next()` returns `None` exactly when the current offset is at
or past the whole-buffer end boundary, and otherwise reads the value
at the current offset and advances by the fixed stride of
`step = rowBytes / size_of::<T>()` elements of `T`. -/
theorem channel_iter_yields_capacity (off rowBytes n tsize : Nat)
    (ht : 0 < tsize) (hdvd : tsize ∣ rowBytes) (hoff : off + tsize ≤ rowBytes) :
    (∀ fuel, n ≤ fuel →
      ((Buffer.channel_iter off rowBytes n tsize).take fuel).length = n)
    ∧ ∀ it : IntoIter,
        (it.next = none ↔ it.endp ≤ it.ptr)
        ∧ (it.ptr < it.endp →
            it.next = some (it.ptr, ⟨it.ptr + it.step * it.tsize, it.endp, it.step, it.tsize⟩)) := by
  constructor
  · intro fuel hfuel
    have hs : rowBytes / tsize * tsize = rowBytes := Nat.div_mul_cancel hdvd
    have hoff' : off < rowBytes / tsize * tsize := by omega
    have hlen := take_length_of_lt (rowBytes / tsize) tsize n fuel 0 off hoff' hfuel
    rw [hs] at hlen
    simpa [Buffer.channel_iter] using hlen
  · intro it
    constructor
    · unfold IntoIter.next
      split <;> simp_all
    · intro h
      unfold IntoIter.next
      rw [if_neg (by omega)]

/-- Witness for C1: a single 2-byte channel, 3 sample rows, iterated
as a 2-byte type with fuel 5 - exactly 3 items. -/
theorem channel_iter_yields_capacity_witness :
    ((Buffer.channel_iter 0 2 3 2).take 5).length = 3 :=
  (channel_iter_yields_capacity 0 2 3 2 (by decide) (by decide) (by decide)).1 5 (by decide)

end IndustrialIo
